import Mathlib

/-!
Verification of the live-audio subsystem of AI-Mega-App.

The definitions below are a shallow embedding of `src/components/LiveChat.tsx`
(the PCM frame codec `createBlob`, the playback scheduler and interruption
handling inside the `onmessage` callback, the transcript aggregation on
turn-complete, the `stopSession` teardown and the `startSession` acquisition
path).  Machine arithmetic follows the JavaScript semantics of the source:
storing a number into an `Int16Array` truncates toward zero and wraps modulo
2^16; sample values are modelled as rationals (a Float32 sample times 32768 is
exact, so no rounding is lost by this choice).  The inbound decoding functions
live in `utils/audioUtils`, which is not part of the sources at hand; they are
modelled from the specification where noted.
-/

namespace AiMegaApp

/-- Truncation toward zero of a rational, the JavaScript `ToIntegerOrInfinity`
conversion applied when a number is stored into an `Int16Array`:
the integer quotient of numerator by denominator rounded toward zero. -/
def ratTrunc (q : ℚ) : ℤ := q.num.tdiv q.den

/-- Interpretation of an integer as a signed 16-bit value: reduce modulo 2^16
into `[-32768, 32767]`.  This is what storing into an `Int16Array` does after
truncation (wrap-around, not saturation). -/
def toInt16 (n : ℤ) : ℤ := (n + 32768) % 65536 - 32768

/-- Sample conversion performed by `createBlob` (LiveChat.tsx line 17):
`int16[i] = data[i] * 32768`, i.e. scale by 32768, truncate toward zero and
store as a signed 16-bit integer with wrap-around. -/
def encodeSample (x : ℚ) : ℤ := toInt16 (ratTrunc (x * 32768))

/-- Little-endian byte pair of a signed 16-bit value, as produced by viewing
the `Int16Array` buffer through a `Uint8Array` (LiveChat.tsx line 20) on a
little-endian host.  Bytes are values in `[0, 255]`. -/
def int16LE (v : ℤ) : List ℤ := [v % 65536 % 256, v % 65536 / 256]

/-- Byte payload of the frame built by `createBlob` (LiveChat.tsx lines 13-24):
every sample converted by `encodeSample`, packed little-endian.  The base64
transport encoding applied on top (`encode` from `utils/audioUtils`, a
byte-for-byte reversible packing per the specification) is left out: the claims
concern the 16-bit values and their byte order. -/
def createBlobBytes (data : List ℚ) : List ℤ :=
  ((data.map encodeSample).map int16LE).flatten

/-- MIME tag of the frame built by `createBlob` (LiveChat.tsx line 22). -/
def createBlobMime : String := "audio/pcm;rate=16000"

/-- Modelled from the spec: the inbound decoding (`decode`/`decodeAudioData`
in `utils/audioUtils`) is not among the sources; the specification states that
inbound bytes are 16-bit signed little-endian PCM decoded to floating-point
samples normalized to `[-1, 1]`, i.e. a 16-bit value `v` becomes `v / 32768`. -/
def decodeSample (v : ℤ) : ℚ := v / 32768

/-- Modelled from the spec: byte-level inbound decoding; consecutive
little-endian byte pairs are reassembled into signed 16-bit values and
normalized by `decodeSample`.  A trailing odd byte is dropped. -/
def decodeFrame : List ℤ → List ℚ
  | lo :: hi :: rest => decodeSample (toInt16 (lo + 256 * hi)) :: decodeFrame rest
  | _ => []

/-- Speaker tag of a transcript entry (LiveChat.tsx lines 7-10). -/
inductive Speaker
  | user
  | model
  deriving DecidableEq

/-- One transcript entry, `TranscriptionEntry` in LiveChat.tsx lines 7-10. -/
structure TranscriptionEntry where
  speaker : Speaker
  text : String
  deriving DecidableEq

/-- Transcript aggregation state: the committed history
(`transcriptionHistory`) and the two per-turn accumulation buffers
(`currentInputTranscriptionRef`, `currentOutputTranscriptionRef`). -/
structure TranscriptState where
  history : List TranscriptionEntry
  inputBuf : String
  outputBuf : String
  deriving DecidableEq

/-- Turn-complete handler (LiveChat.tsx lines 151-164): push a user entry when
the trimmed input buffer is non-empty (the JavaScript test
`if (fullInput.trim())`), then a model entry when the trimmed output buffer is
non-empty; the pushed text is the untrimmed buffer; finally both buffers are
cleared. -/
def turnComplete (st : TranscriptState) : TranscriptState :=
  let h1 := if st.inputBuf.trim ≠ "" then st.history ++ [⟨Speaker.user, st.inputBuf⟩]
            else st.history
  let h2 := if st.outputBuf.trim ≠ "" then h1 ++ [⟨Speaker.model, st.outputBuf⟩]
            else h1
  ⟨h2, "", ""⟩

/-- Playback scheduler state: the `nextStartTimeRef` cursor and the
`audioSourcesRef` set of active sources (LiveChat.tsx lines 41-42), the
latter as a list of source identifiers. -/
structure SchedState where
  nextStartTime : ℚ
  activeSegments : List ℕ
  deriving DecidableEq

/-- One schedule operation, the audio branch of `onmessage` (LiveChat.tsx
lines 128 and 130-136): `nextStartTime = max(nextStartTime, currentTime)`,
start the source at `nextStartTime`, advance the cursor by the buffer
duration, add the source to the active set.  Returns the scheduled start time
and the new state; `now` is the device clock reading, `dur` the buffer
duration, `id` the fresh source identifier. -/
def scheduleOp (now dur : ℚ) (id : ℕ) (st : SchedState) : ℚ × SchedState :=
  let start := max st.nextStartTime now
  (start, ⟨start + dur, st.activeSegments ++ [id]⟩)

/-- Interruption handler (LiveChat.tsx lines 139-143): stop every active
source, clear the set, reset the cursor to 0.  The first component is the list
of sources on which `stop()` is called. -/
def flushOp (st : SchedState) : List ℕ × SchedState :=
  (st.activeSegments, ⟨0, []⟩)

/-- A sequence of schedule operations (no intervening flush): each call is a
pair `(now, dur)` of device clock reading and buffer duration.  Returns the
list of `(start, dur)` of the scheduled segments and the final state. -/
def runSched : SchedState → List (ℚ × ℚ) → List (ℚ × ℚ) × SchedState
  | st, [] => ([], st)
  | st, c :: rest =>
      let p := scheduleOp c.1 c.2 0 st
      let r := runSched p.2 rest
      ((p.1, c.2) :: r.1, r.2)

/-- State of an `AudioContext`: only whether it has been closed matters to the
teardown logic. -/
inductive CtxState
  | running
  | closed
  deriving DecidableEq

/-- The observable release actions performed by the teardown path
(LiveChat.tsx lines 44-78), used to state that a second close releases
nothing. -/
inductive TeardownAct
  | closeConnection
  | stopTrack (t : ℕ)
  | disconnectProcessor
  | disconnectMediaSource
  | closeInputCtx
  | closeOutputCtx
  | stopSource (s : ℕ)
  deriving DecidableEq

/-- The mutable refs and flags of the LiveChat component that the session
lifecycle touches (LiveChat.tsx lines 27-42).  `sessionPromise` is whether
`sessionPromiseRef.current` is non-null; `stream` holds the track identifiers
of the microphone stream when acquired; `inputCtx`/`outputCtx` are `none` when
the ref is null, otherwise carry the context state. -/
structure SessionRefs where
  sessionPromise : Bool
  stream : Option (List ℕ)
  scriptProcessor : Bool
  mediaStreamSource : Bool
  inputCtx : Option CtxState
  outputCtx : Option CtxState
  audioSources : List ℕ
  nextStartTime : ℚ
  isSessionActive : Bool
  isConnecting : Bool
  errorMsg : Option String
  deriving DecidableEq

/-- Raw `AudioContext.close()`: closing an already-closed context is an error
(`InvalidStateError`); on success the state becomes closed. -/
def ctxCloseRaw : CtxState → Except String CtxState
  | CtxState.running => Except.ok CtxState.closed
  | CtxState.closed => Except.error "InvalidStateError"

/-- The guarded context close used by `stopSession` (LiveChat.tsx lines
65-70): `close()` is called only when the ref is non-null and the state is not
already closed.  Returns the new ref content and the actions performed. -/
def closeCtxGuarded (c : Option CtxState) (act : TeardownAct) :
    Except String (Option CtxState × List TeardownAct) :=
  match c with
  | some CtxState.running => (ctxCloseRaw CtxState.running).map fun s => (some s, [act])
  | other => Except.ok (other, [])

/-- `stopSession` (LiveChat.tsx lines 44-78): close the connection and null
the ref when present; stop every microphone track and null the stream ref;
disconnect and null the script processor and the media-stream source; close
each audio context unless already closed (the context refs are NOT nulled);
stop and clear the active sources; reset the cursor; clear the activity
flags.  Returns the new state and the release actions performed. -/
def stopSession (st : SessionRefs) : Except String (SessionRefs × List TeardownAct) := do
  let a1 : List TeardownAct :=
    if st.sessionPromise then [TeardownAct.closeConnection] else []
  let a2 : List TeardownAct :=
    match st.stream with
    | some ts => ts.map TeardownAct.stopTrack
    | none => []
  let a3 : List TeardownAct :=
    if st.scriptProcessor then [TeardownAct.disconnectProcessor] else []
  let a4 : List TeardownAct :=
    if st.mediaStreamSource then [TeardownAct.disconnectMediaSource] else []
  let r5 ← closeCtxGuarded st.inputCtx TeardownAct.closeInputCtx
  let r6 ← closeCtxGuarded st.outputCtx TeardownAct.closeOutputCtx
  let a7 : List TeardownAct := st.audioSources.map TeardownAct.stopSource
  Except.ok (⟨false, none, false, false, r5.1, r6.1, [], 0, false, false, st.errorMsg⟩,
    a1 ++ a2 ++ a3 ++ a4 ++ r5.2 ++ r6.2 ++ a7)

/-- `startSession` (LiveChat.tsx lines 87-185) restricted to its resource and
state effects, with the failure points named by the claims injected as the two
boolean parameters: `micOk` is whether `getUserMedia` succeeds, `connectOk`
whether the connection setup after it succeeds.  The catch block (lines
181-184) only records the error and clears `isConnecting`; it releases
nothing. -/
def startSession (micOk connectOk : Bool) (st : SessionRefs) : SessionRefs :=
  let st1 : SessionRefs := { st with errorMsg := none, isConnecting := true }
  if micOk then
    let st2 : SessionRefs :=
      { st1 with stream := some [0], inputCtx := some CtxState.running,
                 outputCtx := some CtxState.running }
    if connectOk then { st2 with sessionPromise := true }
    else { st2 with errorMsg := some "Failed to start session", isConnecting := false }
  else { st1 with errorMsg := some "Failed to start session", isConnecting := false }

/-- Payload of an inbound audio part: whether its decode succeeds, and the
duration of the decoded buffer. -/
structure AudioPayload where
  valid : Bool
  dur : ℚ
  deriving DecidableEq

/-- An inbound server message, the fields of `message.serverContent` read by
`onmessage` (LiveChat.tsx lines 125-164). -/
structure ServerMessage where
  audio : Option AudioPayload
  interrupted : Bool
  outputTranscription : Option String
  inputTranscription : Option String
  turnComplete : Bool
  deriving DecidableEq

/-- An in-flight asynchronous decode: the `await decodeAudioData` at
LiveChat.tsx line 129 suspends the handler, so the rest of the message's
processing is deferred until the decode settles. -/
structure Job where
  jobId : ℕ
  payload : AudioPayload
  msg : ServerMessage
  deriving DecidableEq

/-- State of the live message pipeline: the output context ref (never nulled
by `stopSession`, hence `ctxPresent` and `ctxOpen` separately), whether the
session has been stopped, the scheduler, the in-flight decodes, the
transcript state, and a log of every performed schedule recording the start
time and whether the session was still open at that moment. -/
structure LiveState where
  ctxPresent : Bool
  ctxOpen : Bool
  sessionOpen : Bool
  sched : SchedState
  jobs : List Job
  nextJobId : ℕ
  trans : TranscriptState
  scheduledLog : List (ℕ × ℚ × Bool)
  deriving DecidableEq

/-- The part of `onmessage` after the audio block (LiveChat.tsx lines
139-164): interruption flush, then transcription accumulation, then
turn-complete finalization, in source order. -/
def processRest (msg : ServerMessage) (st : LiveState) : LiveState :=
  let s1 := if msg.interrupted then { st with sched := ⟨0, []⟩ } else st
  let s2 :=
    match msg.outputTranscription with
    | some t => { s1 with trans := ⟨s1.trans.history, s1.trans.inputBuf, s1.trans.outputBuf ++ t⟩ }
    | none => s1
  let s3 :=
    match msg.inputTranscription with
    | some t => { s2 with trans := ⟨s2.trans.history, s2.trans.inputBuf ++ t, s2.trans.outputBuf⟩ }
    | none => s2
  if msg.turnComplete then { s3 with trans := turnComplete s3.trans } else s3

/-- Arrival of a server message (`onmessage` entry, LiveChat.tsx lines
125-129).  When the message carries audio and the output-context ref is
non-null (the only guard in the source, line 127), the cursor is bumped to
`max(nextStartTime, currentTime)` (line 128) and the decode is started,
deferring the rest of the handler; otherwise the handler runs through
synchronously. -/
def onArrive (now : ℚ) (msg : ServerMessage) (st : LiveState) : LiveState :=
  match msg.audio with
  | some a =>
      if st.ctxPresent then
        { st with sched := ⟨max st.sched.nextStartTime now, st.sched.activeSegments⟩,
                  jobs := st.jobs ++ [⟨st.nextJobId, a, msg⟩],
                  nextJobId := st.nextJobId + 1 }
      else processRest msg st
  | none => processRest msg st

/-- Settlement of an in-flight decode.  On success the post-await code
(LiveChat.tsx lines 130-136) runs with no further guard: the source is started
at the current cursor, the cursor advances, the source joins the active set,
and the rest of the message is processed.  On failure the rejection aborts the
remainder of the handler for that message. -/
def onComplete (id : ℕ) (st : LiveState) : LiveState :=
  match st.jobs.find? (fun jb => jb.jobId == id) with
  | none => st
  | some j =>
      let st1 : LiveState := { st with jobs := st.jobs.filter (fun jb => jb.jobId != id) }
      if j.payload.valid then
        let start := st1.sched.nextStartTime
        processRest j.msg
          { st1 with
            sched := ⟨start + j.payload.dur, st1.sched.activeSegments ++ [j.jobId]⟩,
            scheduledLog := st1.scheduledLog ++ [(j.jobId, start, st1.sessionOpen)] }
      else st1

/-- Effect of `stopSession` (LiveChat.tsx lines 44-78) on the pipeline state:
the session is no longer open, the output context is closed but its ref stays
set, the active sources are stopped and cleared and the cursor reset.
In-flight decodes are untouched: nothing cancels them. -/
def onCloseSession (st : LiveState) : LiveState :=
  { st with sessionOpen := false, ctxOpen := false, sched := ⟨0, []⟩ }

/-- Events of the live pipeline: message arrival (with the device clock
reading), settlement of an in-flight decode, and session close. -/
inductive LiveEv
  | arrive (now : ℚ) (msg : ServerMessage)
  | complete (id : ℕ)
  | close
  deriving DecidableEq

/-- One pipeline step. -/
def liveStep (st : LiveState) : LiveEv → LiveState
  | LiveEv.arrive now msg => onArrive now msg st
  | LiveEv.complete id => onComplete id st
  | LiveEv.close => onCloseSession st

/-- Run a trace of pipeline events. -/
def runLive (st : LiveState) (evs : List LiveEv) : LiveState :=
  evs.foldl liveStep st

/-- A freshly active session: context present and open, session open, empty
scheduler, no in-flight decodes, empty transcript. -/
def activeInit : LiveState :=
  ⟨true, true, true, ⟨0, []⟩, [], 0, ⟨[], "", ""⟩, []⟩

/-- The idle component state before `startSession`. -/
def idleRefs : SessionRefs :=
  ⟨false, none, false, false, none, none, [], 0, false, false, none⟩

/-- A message carrying a well-formed audio part of duration 1 and nothing
else. -/
def c7AudioMsg : ServerMessage := ⟨some ⟨true, 1⟩, false, none, none, false⟩

/-- A message whose audio part fails to decode and which also carries output
transcription text. -/
def c9BadMsg : ServerMessage := ⟨some ⟨false, 1⟩, false, some "hi", none, false⟩

/-- A later message carrying a well-formed audio part. -/
def c9GoodMsg : ServerMessage := ⟨some ⟨true, 1⟩, false, none, none, false⟩

/-- The in-flight decode of `c9BadMsg`. -/
def c9Job : Job := ⟨0, ⟨false, 1⟩, c9BadMsg⟩

/-- An active session with the failing decode of `c9BadMsg` in flight. -/
def c9PendingState : LiveState :=
  { activeInit with jobs := [c9Job], nextJobId := 1 }

/-- Truncation toward zero is the floor on nonnegative rationals and the
ceiling on negative ones. -/
theorem ratTrunc_eq (q : ℚ) : ratTrunc q = if 0 ≤ q then ⌊q⌋ else ⌈q⌉ := by
  unfold ratTrunc
  split
  · rename_i h
    rw [Rat.floor_def]
    exact Int.tdiv_eq_ediv (Rat.num_nonneg.mpr h) (Int.natCast_nonneg _)
  · rename_i h
    have hq : (0:ℚ) ≤ -q := by linarith [lt_of_not_le h]
    have hnum : 0 ≤ (-q).num := Rat.num_nonneg.mpr hq
    have hden : (-q).den = q.den := rfl
    have hfl : ⌊-q⌋ = (-q).num.tdiv ((-q).den : ℤ) := by
      rw [Rat.floor_def]
      exact (Int.tdiv_eq_ediv hnum (Int.natCast_nonneg _)).symm
    have hceil : ⌈q⌉ = -⌊-q⌋ := by
      rw [Int.floor_neg]
      ring
    rw [hceil, hfl, Rat.neg_num, Int.neg_tdiv, neg_neg, hden]

/-- An integer already in the signed 16-bit range is unchanged by the
wrap-around interpretation. -/
theorem toInt16_eq_self (n : ℤ) (h1 : -32768 ≤ n) (h2 : n ≤ 32767) : toInt16 n = n := by
  unfold toInt16
  omega

/-- Truncation of a rational in `[-32768, 32768)` lands in the signed 16-bit
range. -/
theorem ratTrunc_bounds (q : ℚ) (h1 : -32768 ≤ q) (h2 : q < 32768) :
    -32768 ≤ ratTrunc q ∧ ratTrunc q ≤ 32767 := by
  rw [ratTrunc_eq]
  split
  · rename_i h
    constructor
    · have := Int.floor_nonneg.mpr h
      omega
    · have : ⌊q⌋ < 32768 := by
        rw [Int.floor_lt]
        exact_mod_cast h2
      omega
  · rename_i h
    constructor
    · have hc : ((-32768 : ℤ) : ℚ) ≤ q := by exact_mod_cast h1
      have := Int.ceil_le_ceil hc
      rw [Int.ceil_intCast] at this
      exact this
    · have hq : q ≤ 0 := le_of_lt (lt_of_not_le h)
      have hc : q ≤ ((0 : ℤ) : ℚ) := by exact_mod_cast hq
      have := Int.ceil_le_ceil hc
      rw [Int.ceil_intCast] at this
      omega

/-- Truncation moves a rational by at most one. -/
theorem ratTrunc_sub_abs_le_one (q : ℚ) : |(ratTrunc q : ℚ) - q| ≤ 1 := by
  rw [ratTrunc_eq, abs_sub_le_iff]
  split
  · constructor
    · have := Int.floor_le q
      linarith
    · have := Int.sub_one_lt_floor q
      linarith
  · constructor
    · have := Int.ceil_lt_add_one q
      linarith
    · have := Int.le_ceil q
      linarith

/-- For a sample strictly below 1 (and at least -1), the scaled truncation
fits the 16-bit range and no wrap-around occurs. -/
theorem encodeSample_no_wrap (x : ℚ) (h1 : -1 ≤ x) (h2 : x < 1) :
    encodeSample x = ratTrunc (x * 32768) ∧
    -32768 ≤ encodeSample x ∧ encodeSample x ≤ 32767 := by
  have hb := ratTrunc_bounds (x * 32768) (by linarith) (by linarith)
  have he : toInt16 (ratTrunc (x * 32768)) = ratTrunc (x * 32768) :=
    toInt16_eq_self _ hb.1 hb.2
  unfold encodeSample
  rw [he]
  exact ⟨rfl, hb⟩

/-- C4 counterexample: the claim says the sample 1.0 encodes to 32767 by
saturation; in the source `createBlob` stores `1.0 * 32768` into an
`Int16Array`, which wraps to -32768 (bytes `[0x00, 0x80]`), not 32767. -/
theorem C4_cex_one_wraps :
    encodeSample 1 = -32768 ∧ ((-32768 : ℤ) ≠ 32767) ∧ createBlobBytes [1] = [0, 128] := by
  with_unfolding_all decide

/-- C4 (amended): for every sample x in [-1, 1), the outbound encoder maps x
to the 16-bit signed integer obtained by scaling by 32768 and truncating
toward zero (no rounding to nearest and no saturation; the value stays in
[-32768, 32767] and, for x = 1.0 exactly, wraps to -32768 as the
counterexample shows), packs the integers little-endian, and tags the frame
with the fixed 16 kHz PCM format. -/
theorem C4_amended_encode (x : ℚ) (h1 : -1 ≤ x) (h2 : x < 1) :
    encodeSample x = ratTrunc (x * 32768) ∧
    -32768 ≤ encodeSample x ∧ encodeSample x ≤ 32767 ∧
    createBlobBytes [x] = int16LE (encodeSample x) ∧
    createBlobMime = "audio/pcm;rate=16000" := by
  obtain ⟨e1, e2, e3⟩ := encodeSample_no_wrap x h1 h2
  refine ⟨e1, e2, e3, ?_, rfl⟩
  simp [createBlobBytes]

/-- Witness for C4 at the concrete sample 1/2. -/
theorem C4_amended_encode_witness :
    ((-1 : ℚ) ≤ 1/2 ∧ (1/2 : ℚ) < 1) ∧
    (encodeSample (1/2) = ratTrunc ((1/2) * 32768) ∧
     -32768 ≤ encodeSample (1/2) ∧ encodeSample (1/2) ≤ 32767 ∧
     createBlobBytes [1/2] = int16LE (encodeSample (1/2)) ∧
     createBlobMime = "audio/pcm;rate=16000") :=
  ⟨⟨by norm_num, by norm_num⟩, C4_amended_encode (1/2) (by norm_num) (by norm_num)⟩

/-- One sample round-trips to within one quantization step when it lies in
[-1, 1). -/
theorem roundtrip_close (x : ℚ) (h1 : -1 ≤ x) (h2 : x < 1) :
    |decodeSample (encodeSample x) - x| ≤ 1 / 32768 := by
  obtain ⟨e1, _, _⟩ := encodeSample_no_wrap x h1 h2
  rw [e1]
  have habs := ratTrunc_sub_abs_le_one (x * 32768)
  unfold decodeSample
  have h32 : (0:ℚ) < 32768 := by norm_num
  have hrw : ((ratTrunc (x * 32768) : ℚ)) / 32768 - x
      = ((ratTrunc (x * 32768) : ℚ) - x * 32768) / 32768 := by
    ring
  rw [hrw, abs_div, abs_of_pos h32, div_le_div_iff_of_pos_right h32]
  exact habs

/-- Little-endian reassembly undoes the per-sample packing for in-range
values. -/
theorem decodeFrame_cons (v : ℤ) (rest : List ℤ) (h1 : -32768 ≤ v) (h2 : v ≤ 32767) :
    decodeFrame (int16LE v ++ rest) = decodeSample v :: decodeFrame rest := by
  have hv : toInt16 (v % 65536 % 256 + 256 * (v % 65536 / 256)) = v := by
    unfold toInt16
    omega
  simp [int16LE, decodeFrame, hv]

/-- Decoding an encoded frame yields exactly the per-sample round trips, for
samples in [-1, 1). -/
theorem decodeFrame_createBlob (xs : List ℚ) (h : ∀ x ∈ xs, -1 ≤ x ∧ x < 1) :
    decodeFrame (createBlobBytes xs) = xs.map fun x => decodeSample (encodeSample x) := by
  induction xs with
  | nil => rfl
  | cons y ys ih =>
      obtain ⟨hy1, hy2⟩ := h y (by simp)
      obtain ⟨_, hb1, hb2⟩ := encodeSample_no_wrap y hy1 hy2
      have hsplit : createBlobBytes (y :: ys) = int16LE (encodeSample y) ++ createBlobBytes ys := by
        simp [createBlobBytes]
      rw [hsplit, decodeFrame_cons _ _ hb1 hb2, List.map_cons,
        ih fun x hx => h x (by simp [hx])]

/-- C5 counterexample: at the in-range sample 1.0 the encoder wraps to -32768,
so the decoded value is -1, an error of 2 — far beyond one quantization
step. -/
theorem C5_cex_roundtrip_fails_at_one :
    decodeSample (encodeSample 1) = -1 ∧
    ¬(|decodeSample (encodeSample 1) - 1| ≤ 1 / 32768) := by
  with_unfolding_all decide

/-- C5 (amended): for all sample arrays whose values lie in [-1, 1) — the
right end excluded, since x = 1.0 wraps as the counterexample shows — the
decode of the encoded frame reconstructs every sample to within one
quantization step (1/32768) of the original. -/
theorem C5_amended_roundtrip (xs : List ℚ) (h : ∀ x ∈ xs, -1 ≤ x ∧ x < 1) :
    decodeFrame (createBlobBytes xs) = (xs.map fun x => decodeSample (encodeSample x)) ∧
    ∀ x ∈ xs, |decodeSample (encodeSample x) - x| ≤ 1 / 32768 :=
  ⟨decodeFrame_createBlob xs h, fun x hx => roundtrip_close x (h x hx).1 (h x hx).2⟩

/-- Witness for C5 at a concrete three-sample array. -/
theorem C5_amended_roundtrip_witness :
    (∀ x ∈ [(1:ℚ)/2, -(1/2), 0], -1 ≤ x ∧ x < 1) ∧
    (decodeFrame (createBlobBytes [(1:ℚ)/2, -(1/2), 0])
        = ([(1:ℚ)/2, -(1/2), 0].map fun x => decodeSample (encodeSample x)) ∧
     ∀ x ∈ [(1:ℚ)/2, -(1/2), 0], |decodeSample (encodeSample x) - x| ≤ 1 / 32768) :=
  ⟨by with_unfolding_all decide,
   C5_amended_roundtrip [(1:ℚ)/2, -(1/2), 0] (by with_unfolding_all decide)⟩

/-- C6 counterexample: the accumulation buffer " " is a non-empty string, yet
a turn-complete event appends no entry for it — the source tests
`fullInput.trim()`, so emptiness is judged on the trimmed text, refuting the
claim that exactly the non-empty buffers are appended. -/
theorem C6_cex_whitespace_input :
    (turnComplete ⟨[], " ", ""⟩).history = [] ∧ (" " : String) ≠ "" := by
  with_unfolding_all decide

/-- C6 (amended): a turn-complete event appends exactly the buffers whose
trimmed text is non-empty — the user (input) turn before the model (output)
turn when both qualify, exactly one entry with speaker user and text "hello"
when the input buffer is "hello" and the output buffer is empty — and both
accumulation buffers are empty afterward. -/
theorem C6_amended_turn_finalize (st : TranscriptState) :
    (turnComplete st).inputBuf = "" ∧ (turnComplete st).outputBuf = "" ∧
    (turnComplete st).history = st.history
      ++ (if st.inputBuf.trim ≠ "" then [⟨Speaker.user, st.inputBuf⟩] else [])
      ++ (if st.outputBuf.trim ≠ "" then [⟨Speaker.model, st.outputBuf⟩] else []) ∧
    turnComplete ⟨[], "hello", ""⟩ = ⟨[⟨Speaker.user, "hello"⟩], "", ""⟩ := by
  refine ⟨rfl, rfl, ?_, by with_unfolding_all decide⟩
  simp only [turnComplete]
  split <;> split <;> simp

/-- C10: on a turn-complete event a buffer consisting entirely of whitespace
is treated as empty and produces no entry (emptiness is judged on the trimmed
text), while an entry that is produced carries the untrimmed accumulated
text. -/
theorem C10_whitespace_trim (hist : List TranscriptionEntry) (inBuf outBuf : String)
    (h1 : inBuf.trim = "") :
    (turnComplete ⟨hist, inBuf, outBuf⟩).history
      = hist ++ (if outBuf.trim ≠ "" then [⟨Speaker.model, outBuf⟩] else []) ∧
    (outBuf.trim ≠ "" →
      (turnComplete ⟨hist, inBuf, outBuf⟩).history.getLast? = some ⟨Speaker.model, outBuf⟩) := by
  have hcond : ¬(inBuf.trim ≠ "") := by simp [h1]
  constructor
  · simp only [turnComplete, if_neg hcond]
    split <;> simp
  · intro hout
    simp only [turnComplete, if_neg hcond, if_pos hout]
    exact List.getLast?_concat _

/-- Witness for C10: a whitespace-only input buffer yields no user entry,
while the model entry produced carries its text untrimmed, whitespace
included. -/
theorem C10_whitespace_trim_witness :
    (" " : String).trim = "" ∧
    ((turnComplete ⟨[], " ", " x "⟩).history
        = [] ++ (if (" x " : String).trim ≠ "" then [⟨Speaker.model, " x "⟩] else []) ∧
     ((" x " : String).trim ≠ "" →
       (turnComplete ⟨[], " ", " x "⟩).history.getLast? = some ⟨Speaker.model, " x "⟩)) :=
  ⟨by with_unfolding_all decide, C10_whitespace_trim [] " " " x " (by with_unfolding_all decide)⟩

/-- C2: after flush() every buffer in the active set has had stop() called on
it (the first component lists exactly the stopped sources), the active set is
empty, and the cursor is 0, regardless of how many segments were pending. -/
theorem C2_flush_resets (st : SchedState) :
    (flushOp st).1 = st.activeSegments ∧
    (flushOp st).2.activeSegments = [] ∧
    (flushOp st).2.nextStartTime = 0 :=
  ⟨rfl, rfl, rfl⟩

/-- C3: stopSession never errors, and running it twice in succession performs
the device/stream release exactly once — the second run performs no release
action at all and leaves the state unchanged. -/
theorem C3_stop_idempotent (st : SessionRefs) :
    ∃ st1 acts, stopSession st = Except.ok (st1, acts) ∧
      stopSession st1 = Except.ok (st1, []) := by
  rcases st with ⟨sp, str, spr, mss, ic, oc, srcs, nst, sa, conn, err⟩
  rcases ic with _ | ic
  · rcases oc with _ | oc
    · exact ⟨_, _, rfl, rfl⟩
    · cases oc <;> exact ⟨_, _, rfl, rfl⟩
  · rcases oc with _ | oc
    · cases ic <;> exact ⟨_, _, rfl, rfl⟩
    · cases ic <;> cases oc <;> exact ⟨_, _, rfl, rfl⟩

/-- C7 (code defect): trace in which an audio message arrives, the session is
closed, and only then the asynchronous decode completes.  The decoded result
is not discarded: the post-await code schedules it — the schedule log records
a segment started while the session was closed, and the source joins the
active set of the already-flushed scheduler. -/
theorem C7_scheduled_after_close :
    (runLive activeInit
        [LiveEv.arrive 0 c7AudioMsg, LiveEv.close, LiveEv.complete 0]).scheduledLog
      = [(0, 0, false)] ∧
    (runLive activeInit
        [LiveEv.arrive 0 c7AudioMsg, LiveEv.close, LiveEv.complete 0]).sessionOpen = false ∧
    (runLive activeInit
        [LiveEv.arrive 0 c7AudioMsg, LiveEv.close, LiveEv.complete 0]).sched.activeSegments
      = [0] := by
  with_unfolding_all decide

/-- C8 (code defect): when the microphone stream and both audio contexts have
been acquired and the connection setup then throws, the catch block reports
the error and returns to idle, but the stream and both contexts remain
acquired — nothing is released. -/
theorem C8_leak_on_connect_failure :
    (startSession true false idleRefs).errorMsg = some "Failed to start session" ∧
    (startSession true false idleRefs).isConnecting = false ∧
    (startSession true false idleRefs).isSessionActive = false ∧
    (startSession true false idleRefs).stream = some [0] ∧
    (startSession true false idleRefs).inputCtx = some CtxState.running ∧
    (startSession true false idleRefs).outputCtx = some CtxState.running := by
  with_unfolding_all decide

/-- C9 counterexample: a message whose audio part fails to decode and which
also carries output-transcription text "hi".  The rejection of the awaited
decode abandons the rest of the handler, so the text never reaches the
accumulation buffer — more than the single frame is dropped, refuting the
claim as stated. -/
theorem C9_cex_companion_text_dropped :
    (runLive activeInit [LiveEv.arrive 0 c9BadMsg, LiveEv.complete 0]).trans.outputBuf = "" ∧
    (runLive activeInit [LiveEv.arrive 0 c9BadMsg, LiveEv.complete 0]).sessionOpen = true ∧
    c9BadMsg.outputTranscription = some "hi" ∧ ("hi" : String) ≠ "" := by
  with_unfolding_all decide

/-- C9 (amended): a decode failure on one inbound frame abandons the
processing of that entire message (the frame and any transcription,
interruption or turn-complete payload it carried), schedules nothing and
touches neither transcript nor session state; the session stays active and
subsequent valid inbound frames are still decoded and scheduled, as the
concrete failing-then-valid trace shows. -/
theorem C9_amended_failure_isolated (st : LiveState) (j : Job)
    (hfind : st.jobs.find? (fun jb => jb.jobId == j.jobId) = some j)
    (hbad : j.payload.valid = false) :
    onComplete j.jobId st = { st with jobs := st.jobs.filter fun jb => jb.jobId != j.jobId } ∧
    (onComplete j.jobId st).sessionOpen = st.sessionOpen ∧
    (onComplete j.jobId st).scheduledLog = st.scheduledLog ∧
    (onComplete j.jobId st).trans = st.trans ∧
    (runLive activeInit [LiveEv.arrive 0 c9BadMsg, LiveEv.complete 0,
        LiveEv.arrive 1 c9GoodMsg, LiveEv.complete 1]).scheduledLog = [(1, 1, true)] := by
  have he : onComplete j.jobId st
      = { st with jobs := st.jobs.filter fun jb => jb.jobId != j.jobId } := by
    unfold onComplete
    rw [hfind]
    simp [hbad]
  exact ⟨he, by rw [he], by rw [he], by rw [he], by with_unfolding_all decide⟩

/-- Witness for C9 on a session with the failing decode in flight. -/
theorem C9_amended_failure_isolated_witness :
    (c9PendingState.jobs.find? (fun jb => jb.jobId == c9Job.jobId) = some c9Job ∧
     c9Job.payload.valid = false) ∧
    (onComplete c9Job.jobId c9PendingState
        = { c9PendingState with
            jobs := c9PendingState.jobs.filter fun jb => jb.jobId != c9Job.jobId } ∧
     (onComplete c9Job.jobId c9PendingState).sessionOpen = c9PendingState.sessionOpen ∧
     (onComplete c9Job.jobId c9PendingState).scheduledLog = c9PendingState.scheduledLog ∧
     (onComplete c9Job.jobId c9PendingState).trans = c9PendingState.trans ∧
     (runLive activeInit [LiveEv.arrive 0 c9BadMsg, LiveEv.complete 0,
         LiveEv.arrive 1 c9GoodMsg, LiveEv.complete 1]).scheduledLog = [(1, 1, true)]) :=
  ⟨⟨by with_unfolding_all decide, by with_unfolding_all decide⟩,
   C9_amended_failure_isolated c9PendingState c9Job (by with_unfolding_all decide)
     (by with_unfolding_all decide)⟩

/-- Scheduled start of a single call: the cursor pushed up to the device
clock. -/
theorem scheduleOp_fst (now dur : ℚ) (i : ℕ) (st : SchedState) :
    (scheduleOp now dur i st).1 = max st.nextStartTime now := rfl

/-- Cursor after a single call: the scheduled start plus the duration. -/
theorem scheduleOp_cursor (now dur : ℚ) (i : ℕ) (st : SchedState) :
    (scheduleOp now dur i st).2.nextStartTime = max st.nextStartTime now + dur := rfl

/-- Unfolding a run over its first call. -/
theorem runSched_cons (st : SchedState) (c : ℚ × ℚ) (rest : List (ℚ × ℚ)) :
    runSched st (c :: rest) =
      (((scheduleOp c.1 c.2 0 st).1, c.2) :: (runSched (scheduleOp c.1 c.2 0 st).2 rest).1,
        (runSched (scheduleOp c.1 c.2 0 st).2 rest).2) := rfl

/-- The cursor never decreases over a run, when every duration is
nonnegative. -/
theorem runSched_cursor_mono (calls : List (ℚ × ℚ)) :
    ∀ st : SchedState, (∀ c ∈ calls, 0 ≤ c.2) →
      st.nextStartTime ≤ (runSched st calls).2.nextStartTime := by
  induction calls with
  | nil => intro st _; exact le_refl _
  | cons c rest ih =>
      intro st hd
      have h0 : 0 ≤ c.2 := hd c (List.mem_cons_self c rest)
      have hstep : st.nextStartTime ≤ (scheduleOp c.1 c.2 0 st).2.nextStartTime := by
        rw [scheduleOp_cursor]
        have := le_max_left st.nextStartTime c.1
        linarith
      exact hstep.trans (ih _ fun d hdm => hd d (List.mem_cons_of_mem _ hdm))

/-- Every segment scheduled during a run starts no earlier than the initial
cursor and ends no later than the final cursor. -/
theorem runSched_out_bounds (calls : List (ℚ × ℚ)) :
    ∀ st : SchedState, (∀ c ∈ calls, 0 ≤ c.2) →
      ∀ o ∈ (runSched st calls).1,
        st.nextStartTime ≤ o.1 ∧ o.1 + o.2 ≤ (runSched st calls).2.nextStartTime := by
  induction calls with
  | nil =>
      intro st _ o ho
      simp [runSched] at ho
  | cons c rest ih =>
      intro st hd o ho
      rw [runSched_cons] at ho
      have h0 : 0 ≤ c.2 := hd c (List.mem_cons_self c rest)
      have hrest : ∀ d ∈ rest, 0 ≤ d.2 := fun d hdm => hd d (List.mem_cons_of_mem _ hdm)
      rcases List.mem_cons.mp ho with he | hm
      · subst he
        constructor
        · show st.nextStartTime ≤ max st.nextStartTime c.1
          exact le_max_left _ _
        · show max st.nextStartTime c.1 + c.2
            ≤ (runSched (scheduleOp c.1 c.2 0 st).2 rest).2.nextStartTime
          have hcur := runSched_cursor_mono rest (scheduleOp c.1 c.2 0 st).2 hrest
          rw [scheduleOp_cursor] at hcur
          exact hcur
      · have hstep : st.nextStartTime ≤ (scheduleOp c.1 c.2 0 st).2.nextStartTime := by
          rw [scheduleOp_cursor]
          have := le_max_left st.nextStartTime c.1
          linarith
        have hih := ih (scheduleOp c.1 c.2 0 st).2 hrest o hm
        exact ⟨hstep.trans hih.1, hih.2⟩

/-- No two segments of a run overlap: pairwise, each earlier segment's end is
at most each later segment's start. -/
theorem runSched_pairwise (calls : List (ℚ × ℚ)) :
    ∀ st : SchedState, (∀ c ∈ calls, 0 ≤ c.2) →
      ((runSched st calls).1).Pairwise fun a b => a.1 + a.2 ≤ b.1 := by
  induction calls with
  | nil => intro st _; exact List.Pairwise.nil
  | cons c rest ih =>
      intro st hd
      have hrest : ∀ d ∈ rest, 0 ≤ d.2 := fun d hdm => hd d (List.mem_cons_of_mem _ hdm)
      show List.Pairwise _
        (((scheduleOp c.1 c.2 0 st).1, c.2) :: (runSched (scheduleOp c.1 c.2 0 st).2 rest).1)
      refine List.Pairwise.cons ?_ (ih _ hrest)
      intro b hb
      have hih := runSched_out_bounds rest (scheduleOp c.1 c.2 0 st).2 hrest b hb
      have hb1 : (scheduleOp c.1 c.2 0 st).2.nextStartTime ≤ b.1 := hih.1
      rw [scheduleOp_cursor] at hb1
      exact hb1

/-- Splitting a run at any point composes the final states. -/
theorem runSched_append (l1 l2 : List (ℚ × ℚ)) :
    ∀ st : SchedState, (runSched st (l1 ++ l2)).2 = (runSched (runSched st l1).2 l2).2 := by
  induction l1 with
  | nil => intro st; rfl
  | cons c rest ih =>
      intro st
      show (runSched (scheduleOp c.1 c.2 0 st).2 (rest ++ l2)).2
        = (runSched (runSched (scheduleOp c.1 c.2 0 st).2 rest).2 l2).2
      exact ih _

/-- C1: over any sequence of schedule() calls with no intervening flush (each
call a pair of device-clock reading and buffer duration, durations
nonnegative), the scheduled segments are back-to-back without overlap — for
any earlier segment A and later segment B, A's end is at most B's start — and
the cursor is monotonically non-decreasing: after any initial part of the
sequence it is at most the cursor after the whole sequence. -/
theorem C1_schedule_no_overlap (st : SchedState) (pre suf : List (ℚ × ℚ))
    (hd : ∀ c ∈ pre ++ suf, 0 ≤ c.2) :
    ((runSched st (pre ++ suf)).1).Pairwise (fun a b => a.1 + a.2 ≤ b.1) ∧
    (runSched st pre).2.nextStartTime ≤ (runSched st (pre ++ suf)).2.nextStartTime := by
  constructor
  · exact runSched_pairwise (pre ++ suf) st hd
  · rw [runSched_append pre suf st]
    exact runSched_cursor_mono suf _ fun c hc => hd c (List.mem_append_right _ hc)

/-- Witness for C1 on a concrete three-call schedule. -/
theorem C1_schedule_no_overlap_witness :
    (∀ c ∈ ([((0:ℚ), (1:ℚ)), ((5:ℚ), (2:ℚ))] ++ [((3:ℚ), (4:ℚ))]), 0 ≤ c.2) ∧
    (((runSched ⟨0, []⟩ ([((0:ℚ), (1:ℚ)), ((5:ℚ), (2:ℚ))] ++ [((3:ℚ), (4:ℚ))])).1).Pairwise
        (fun a b => a.1 + a.2 ≤ b.1) ∧
     (runSched ⟨0, []⟩ [((0:ℚ), (1:ℚ)), ((5:ℚ), (2:ℚ))]).2.nextStartTime ≤
       (runSched ⟨0, []⟩ ([((0:ℚ), (1:ℚ)), ((5:ℚ), (2:ℚ))] ++ [((3:ℚ), (4:ℚ))])).2.nextStartTime) :=
  ⟨by with_unfolding_all decide,
   C1_schedule_no_overlap ⟨0, []⟩ [((0:ℚ), (1:ℚ)), ((5:ℚ), (2:ℚ))] [((3:ℚ), (4:ℚ))]
     (by with_unfolding_all decide)⟩

end AiMegaApp
